import Mathlib

/-!
Shallow embedding of the metrics engine of `src/ETF.py` (ETF Investment
Growth Analyzer).  Prices and dividend amounts are embedded as rationals;
quantities the script computes with `math`/NumPy square roots or real
exponentiation live in `ℝ`.  NumPy/pandas NaN results (a sample statistic
over fewer than two observations) are embedded as `Option` `none`, and the
IEEE behaviour of dividing a finite float by zero is embedded explicitly in
the `FloatVal` type.
-/

/-- A timezone-normalized calendar date: its absolute day number (used for
ordering, range filtering and day-span subtraction) and its calendar year
(used by the `groupby('Year')` table). -/
structure Date where
  days : ℤ
  year : ℤ
deriving DecidableEq

/-- Daily returns of a price list, `pct_change().dropna()`:
element `i` is `p[i+1]/p[i] - 1`, one fewer element than the price list. -/
def dailyReturns (ps : List ℚ) : List ℚ :=
  (ps.zip ps.tail).map (fun pq => pq.2 / pq.1 - 1)

/-- The `pct_change().fillna(0)` column: same length as the price list, with
the undefined first return replaced by `0`. -/
def pctChangeFillZero (ps : List ℚ) : List ℚ :=
  match ps with
  | [] => []
  | _ :: _ => 0 :: dailyReturns ps

/-- Running products with accumulator, the core of pandas `cumprod`. -/
def cumprodAux (acc : ℚ) : List ℚ → List ℚ
  | [] => []
  | x :: t => (acc * x) :: cumprodAux (acc * x) t

/-- Pandas `cumprod`: element `i` is the product of the first `i+1` elements. -/
def cumprod (l : List ℚ) : List ℚ := cumprodAux 1 l

/-- `data['Cumulative Return'] = data['Adj Close'].pct_change().fillna(0).add(1).cumprod()`. -/
def cumulativeReturn (ps : List ℚ) : List ℚ :=
  cumprod ((pctChangeFillZero ps).map (fun r => r + 1))

/-- `data['Investment Value'] = initial_investment * data['Cumulative Return']`. -/
def investmentValue (init : ℚ) (ps : List ℚ) : List ℚ :=
  (cumulativeReturn ps).map (fun c => init * c)

/-- `total_return = data['Cumulative Return'].iloc[-1] - 1`. -/
def totalReturn (ps : List ℚ) : ℚ :=
  (cumulativeReturn ps).getLastD 0 - 1

/-- Mean of a list of rationals (pandas `mean` over the defined entries). -/
def listMean (l : List ℚ) : ℚ := l.sum / l.length

/-- Pandas sample variance (`ddof = 1`): defined only for at least two
observations, otherwise NaN (embedded as `none`). -/
def sampleVar (l : List ℚ) : Option ℚ :=
  if 2 ≤ l.length then
    some ((l.map (fun x => (x - listMean l) ^ 2)).sum / ((l.length : ℚ) - 1))
  else none

/-- `daily_volatility = data['Daily Return'].std()`: sample standard
deviation of the defined daily returns, NaN (`none`) below two returns. -/
noncomputable def dailyVolatility (rets : List ℚ) : Option ℝ :=
  (sampleVar rets).map (fun v => Real.sqrt (v : ℝ))

/-- `annualized_volatility = daily_volatility * (252 ** 0.5)`. -/
noncomputable def annualizedVolatility (rets : List ℚ) : Option ℝ :=
  (dailyVolatility rets).map (fun s => s * Real.sqrt 252)

/-- Value of a NumPy float64 scalar as the script can produce it:
finite, `inf`, `-inf` or NaN. -/
inductive FloatVal where
  | nan
  | posInf
  | negInf
  | fin (x : ℝ)

/-- `daily_sharpe_ratio = daily_excess_return.mean() / daily_volatility`,
with `daily_excess_return = data['Daily Return'] - risk_free_rate / 252`.
Dividing the finite mean by a zero standard deviation follows IEEE float
semantics (`±inf`, or NaN when the mean is also zero); a NaN standard
deviation (fewer than two returns) propagates to NaN. -/
noncomputable def daily_sharpe_ratio (rets : List ℚ) (rf : ℚ) : FloatVal :=
  let m : ℝ := (listMean (rets.map (fun r => r - rf / 252)) : ℝ)
  match dailyVolatility rets with
  | none => FloatVal.nan
  | some s =>
    if s = 0 then
      if 0 < m then FloatVal.posInf
      else if m < 0 then FloatVal.negInf
      else FloatVal.nan
    else FloatVal.fin (m / s)

/-- Multiplication of a float value by a finite scalar, IEEE semantics on
the infinities (`±inf * 0 = NaN`). -/
noncomputable def floatScale (v : FloatVal) (c : ℝ) : FloatVal :=
  match v with
  | FloatVal.nan => FloatVal.nan
  | FloatVal.posInf =>
      if 0 < c then FloatVal.posInf else if c < 0 then FloatVal.negInf else FloatVal.nan
  | FloatVal.negInf =>
      if 0 < c then FloatVal.negInf else if c < 0 then FloatVal.posInf else FloatVal.nan
  | FloatVal.fin x => FloatVal.fin (x * c)

/-- `annualized_sharpe_ratio = daily_sharpe_ratio * (252 ** 0.5)`. -/
noncomputable def annualized_sharpe_ratio (rets : List ℚ) (rf : ℚ) : FloatVal :=
  floatScale (daily_sharpe_ratio rets rf) (Real.sqrt 252)
/-- The spec's alternative Sharpe formulation, for the refinement claim:
identical to `daily_sharpe_ratio` except that the denominator is the sample
standard deviation of the EXCESS-return series instead of the raw daily
returns. -/
noncomputable def daily_sharpe_ratio_excessVol (rets : List ℚ) (rf : ℚ) : FloatVal :=
  let m : ℝ := (listMean ((rets.map (fun r => r - rf / 252))) : ℝ)
  match dailyVolatility (rets.map (fun r => r - rf / 252)) with
  | none => FloatVal.nan
  | some s =>
    if s = 0 then
      if 0 < m then FloatVal.posInf
      else if m < 0 then FloatVal.negInf
      else FloatVal.nan
    else FloatVal.fin (m / s)


/-- `years = (end_date - start_date).days / 365.25`. -/
noncomputable def years (spanDays : ℤ) : ℝ := (spanDays : ℝ) / 365.25

/-- `cagr = (1 + total_return) ** (1 / years) - 1` (real exponentiation). -/
noncomputable def cagr (ps : List ℚ) (spanDays : ℤ) : ℝ :=
  (1 + (totalReturn ps : ℝ)) ^ ((1 : ℝ) / years spanDays) - 1

/-- Dividend yield, lines 98-105 of the script: the emptiness test is on the
ticker's FULL dividend history; only afterwards are the dividends filtered
to the inclusive `[start_date, end_date]` window and summed, and the sum is
divided by the first adjusted close price. -/
def dividend_yield (divs : List (Date × ℚ)) (startD endD : Date) (ps : List ℚ) : Option ℚ :=
  if divs = [] then none
  else
    some (((divs.filter
        (fun dv => startD.days ≤ dv.1.days ∧ dv.1.days ≤ endD.days)).map Prod.snd).sum
      / ps.headD 0)

/-- Daily returns of a dated price series, keeping the date of each return
(the return of day `i` is indexed by the date of day `i`, `i ≥ 1`), as the
`pct_change().dropna()` series is indexed in pandas. -/
def dailyReturnsDated (ps : List (Date × ℚ)) : List (Date × ℚ) :=
  (ps.zip ps.tail).map (fun ab => (ab.2.1, ab.2.2 / ab.1.2 - 1))

/-- Pandas index alignment of two date-indexed series: the pairs of values
at dates present in both series, unmatched dates excluded. -/
def alignByDate (xs ys : List (Date × ℚ)) : List (ℚ × ℚ) :=
  xs.filterMap (fun dx => (ys.lookup dx.1).map (fun y => (dx.2, y)))

/-- Pandas sample covariance (`ddof = 1`) over the pairwise-complete
observations: NaN (`none`) below two pairs. -/
def sampleCov (pairs : List (ℚ × ℚ)) : Option ℚ :=
  if 2 ≤ pairs.length then
    some ((pairs.map (fun xy =>
        (xy.1 - listMean (pairs.map Prod.fst)) * (xy.2 - listMean (pairs.map Prod.snd)))).sum
      / ((pairs.length : ℚ) - 1))
  else none

/-- Result of the beta computation: Python `None` (rendered "N/A"), a NaN
float, or a finite value. -/
inductive BetaVal where
  | none
  | nan
  | val (q : ℚ)
deriving DecidableEq

/-- Beta, lines 88-95 of the script: `None` when the benchmark fetch is
empty; otherwise `cov / var` where the covariance is over the date-aligned
return pairs and the variance over ALL benchmark returns, guarded by
`if market_variance != 0 else None`.  A NaN variance passes the `!= 0` test
in Python and makes the quotient NaN; a NaN covariance also yields NaN. -/
def beta (data market : List (Date × ℚ)) : BetaVal :=
  if market = [] then BetaVal.none
  else
    let tickerRets := dailyReturnsDated data
    let marketRets := dailyReturnsDated market
    let covariance := sampleCov (alignByDate tickerRets marketRets)
    let market_variance := sampleVar (marketRets.map Prod.snd)
    match market_variance with
    | Option.none => BetaVal.nan
    | Option.some v =>
      if v = 0 then BetaVal.none
      else
        match covariance with
        | Option.none => BetaVal.nan
        | Option.some c => BetaVal.val (c / v)

/-- The rows `(date.year, investment value)` of the data frame entering
`groupby('Year')`. -/
def annualRows (init : ℚ) (data : List (Date × ℚ)) : List (ℤ × ℚ) :=
  (data.zip (investmentValue init (data.map Prod.snd))).map (fun r => (r.1.1.year, r.2))

/-- `annual_table = data.groupby('Year').last()[['Investment Value']]`:
pandas sorts the distinct group keys ascending and keeps, for each year, the
value of the last row of that group in frame order. -/
def annual_table (init : ℚ) (data : List (Date × ℚ)) : List (ℤ × ℚ) :=
  (((annualRows init data).map Prod.fst).toFinset.sort (· ≤ ·)).map
    (fun y => (y, (((annualRows init data).filter (fun r => r.1 = y)).map Prod.snd).getLastD 0))

/-- Everything the script renders after a successful analysis. -/
structure AnalysisResult where
  table : List (ℤ × ℚ)
  cagrVal : ℝ
  volatility : Option ℝ
  sharpe : FloatVal
  betaVal : BetaVal
  divYield : Option ℚ
  investmentSeries : List ℚ

/-- The user-facing failures of the script, in the order they are tested. -/
inductive AnalysisError where
  | invalidDates
  | emptyTicker
  | noData (ticker : String)
deriving DecidableEq

/-- The analysis flow behind the "Analyze Growth" button: date validation,
ticker validation, the `data.empty` check (fatal `NoDataError`), then the
pure metric computations on the fetched series.  The three fetch results
(`data`, `market`, `divs`) are parameters, the fetches being external. -/
noncomputable def analyze (ticker : String) (startD endD : Date) (init rf : ℚ)
    (data market divs : List (Date × ℚ)) : Except AnalysisError AnalysisResult :=
  if endD.days ≤ startD.days then Except.error AnalysisError.invalidDates
  else if ticker = "" then Except.error AnalysisError.emptyTicker
  else if data = [] then Except.error (AnalysisError.noData ticker)
  else
    let prices := data.map Prod.snd
    let rets := dailyReturns prices
    Except.ok
      { table := annual_table init data
        cagrVal := cagr prices (endD.days - startD.days)
        volatility := annualizedVolatility rets
        sharpe := annualized_sharpe_ratio rets rf
        betaVal := beta data market
        divYield := dividend_yield divs startD endD prices
        investmentSeries := investmentValue init prices }

lemma length_dailyReturns (ps : List ℚ) : (dailyReturns ps).length = ps.length - 1 := by
  cases ps with
  | nil => rfl
  | cons p t => simp [dailyReturns, Nat.min_def]

/-- C3: for every non-empty PriceSeries, the first CumulativeReturn is
exactly 1 and the first InvestmentValue is exactly the initial investment:
the missing first daily return enters the cumulative product as 0. -/
theorem cumulativeReturn_head (init : ℚ) (ps : List ℚ) (h : ps ≠ []) :
    (cumulativeReturn ps).head? = some 1 ∧
    (investmentValue init ps).head? = some init := by
  match ps, h with
  | p :: t, _ =>
    refine ⟨?_, ?_⟩
    · simp [cumulativeReturn, pctChangeFillZero, cumprod, cumprodAux]
    · simp [investmentValue, cumulativeReturn, pctChangeFillZero, cumprod, cumprodAux]

theorem cumulativeReturn_head_witness :
    (cumulativeReturn [100, 102, 101]).head? = some 1 ∧
    (investmentValue 1000 [100, 102, 101]).head? = some 1000 :=
  cumulativeReturn_head 1000 [100, 102, 101] (by decide)

/-- C7: CAGR equals `(1 + totalReturn) ** (1 / years) - 1` with
`totalReturn` the last CumulativeReturn minus 1 and `years` the day span
divided by 365.25; and when `totalReturn = 0` (in particular for
`years = 1`) the CAGR is 0. -/
theorem cagr_formula (ps : List ℚ) (spanDays : ℤ) :
    cagr ps spanDays =
      (1 + (((cumulativeReturn ps).getLastD 0 - 1 : ℚ) : ℝ)) ^
        ((1 : ℝ) / ((spanDays : ℝ) / 365.25)) - 1 ∧
    (totalReturn ps = 0 → cagr ps spanDays = 0) := by
  refine ⟨rfl, fun h => ?_⟩
  simp [cagr, h, Real.one_rpow]

theorem cagr_formula_witness :
    totalReturn [100, 100] = 0 ∧ cagr [100, 100] 365 = 0 := by
  have h : totalReturn [100, 100] = 0 := by
    norm_num [totalReturn, cumulativeReturn, pctChangeFillZero, cumprod, cumprodAux, dailyReturns]
  exact ⟨h, (cagr_formula [100, 100] 365).2 h⟩

/-- C8: a fetched PriceSeries that is empty makes the whole analysis fail
with `NoDataError` for the requested ticker: no result record (table,
metrics, chart series) is produced. -/
theorem analyze_empty_noData (ticker : String) (startD endD : Date) (init rf : ℚ)
    (market divs : List (Date × ℚ)) (hd : startD.days < endD.days) (ht : ticker ≠ "") :
    analyze ticker startD endD init rf [] market divs =
      Except.error (AnalysisError.noData ticker) := by
  unfold analyze
  rw [if_neg (not_le.mpr hd), if_neg ht, if_pos rfl]

theorem analyze_empty_noData_witness :
    analyze "ZZZZ" ⟨0, 2023⟩ ⟨1, 2023⟩ 1000 (1 / 50) [] [] [] =
      Except.error (AnalysisError.noData "ZZZZ") :=
  analyze_empty_noData "ZZZZ" ⟨0, 2023⟩ ⟨1, 2023⟩ 1000 (1 / 50) [] [] (by decide) (by decide)

/-- C1 counterexample: the dividend history holds one event dated outside
the `[start, end]` window, so no dividend event falls in the window, yet the
code returns the PRESENT value 0 (the emptiness test at line 99 looks at the
full history, before the window filter): the absent case is represented as
zero, contradicting the claim. -/
theorem dividend_yield_window_empty_counterexample :
    ([((⟨0, 2019⟩ : Date), (5 : ℚ))].filter
        (fun dv => (⟨10, 2023⟩ : Date).days ≤ dv.1.days ∧ dv.1.days ≤ (⟨20, 2023⟩ : Date).days))
      = [] ∧
    dividend_yield [((⟨0, 2019⟩ : Date), (5 : ℚ))] ⟨10, 2023⟩ ⟨20, 2023⟩ [100] = some 0 := by
  constructor
  · decide
  · norm_num [dividend_yield]

/-- C1 amended: DividendYield is absent exactly when the ticker's FULL
dividend history is empty; otherwise it is present and equals the sum of
the in-window dividend amounts divided by the first adjusted close price —
a value that is 0 (present, not absent) whenever the history is non-empty
but no event falls inside the window. -/
theorem dividend_yield_spec (divs : List (Date × ℚ)) (startD endD : Date) (ps : List ℚ) :
    (dividend_yield divs startD endD ps = none ↔ divs = []) ∧
    (divs ≠ [] →
      dividend_yield divs startD endD ps =
        some (((divs.filter
            (fun dv => startD.days ≤ dv.1.days ∧ dv.1.days ≤ endD.days)).map Prod.snd).sum
          / ps.headD 0)) := by
  constructor
  · by_cases h : divs = [] <;> simp [dividend_yield, h]
  · intro h
    simp [dividend_yield, h]

theorem dividend_yield_spec_witness :
    ([((⟨15, 2023⟩ : Date), (5 : ℚ))] : List (Date × ℚ)) ≠ [] ∧
    dividend_yield [((⟨15, 2023⟩ : Date), (5 : ℚ))] ⟨10, 2023⟩ ⟨20, 2023⟩ [100] =
      some (1 / 20) := by
  refine ⟨by decide, ?_⟩
  rw [(dividend_yield_spec [((⟨15, 2023⟩ : Date), (5 : ℚ))] ⟨10, 2023⟩ ⟨20, 2023⟩ [100]).2
    (by decide)]
  norm_num

/-- C4 counterexample: for a single-element PriceSeries there are no daily
returns, pandas `std` over fewer than two observations is NaN, and the
annualized volatility is NaN (`none`): it is not a number `≥ 0`, refuting
the claim for the single-element case it explicitly includes. -/
theorem annualizedVolatility_singleton_counterexample :
    annualizedVolatility (dailyReturns [100]) = none ∧
    ¬ ∃ v : ℝ, annualizedVolatility (dailyReturns [100]) = some v ∧ 0 ≤ v := by
  have h : annualizedVolatility (dailyReturns [100]) = none := rfl
  exact ⟨h, by simp [h]⟩

/-- C4 amended: for every PriceSeries with at least three elements (hence at
least two daily returns) the annualized volatility is a defined real number,
equal to the sample standard deviation (divisor `n-1`) of the daily returns
scaled by `sqrt 252`, and it is `≥ 0`; for one- or two-element series it is
NaN (absent), not a non-negative number. -/
theorem annualizedVolatility_nonneg (ps : List ℚ) (h : 3 ≤ ps.length) :
    ∃ q : ℚ, ∃ v : ℝ,
      sampleVar (dailyReturns ps) = some q ∧
      annualizedVolatility (dailyReturns ps) = some v ∧
      v = Real.sqrt (q : ℝ) * Real.sqrt 252 ∧ 0 ≤ v := by
  have hl : 2 ≤ (dailyReturns ps).length := by
    rw [length_dailyReturns]; omega
  have hq : sampleVar (dailyReturns ps) =
      some (((dailyReturns ps).map (fun x => (x - listMean (dailyReturns ps)) ^ 2)).sum /
        (((dailyReturns ps).length : ℚ) - 1)) := by
    rw [sampleVar, if_pos hl]
  refine ⟨_, _, hq, ?_, rfl, ?_⟩
  · rw [annualizedVolatility, dailyVolatility, hq]
    rfl
  · positivity

theorem annualizedVolatility_nonneg_witness :
    ∃ q : ℚ, ∃ v : ℝ,
      sampleVar (dailyReturns [100, 102, 101]) = some q ∧
      annualizedVolatility (dailyReturns [100, 102, 101]) = some v ∧
      v = Real.sqrt (q : ℝ) * Real.sqrt 252 ∧ 0 ≤ v :=
  annualizedVolatility_nonneg [100, 102, 101] (by decide)

/-- C2: evaluation of the code at the failing input.  For the constant
price series 100, 100, 100 (daily volatility exactly 0) the daily Sharpe
ratio is the IEEE quotient of the negative finite mean excess return by
zero, i.e. `-inf` — not a reported domain error — and the analysis
completes with a successful result carrying that non-finite Sharpe ratio to
the display layer. -/
theorem zero_volatility_sharpe_not_error :
    dailyVolatility (dailyReturns [100, 100, 100]) = some 0 ∧
    annualized_sharpe_ratio (dailyReturns [100, 100, 100]) (1 / 50) = FloatVal.negInf ∧
    ∃ r : AnalysisResult,
      analyze "SPY" ⟨0, 2023⟩ ⟨2, 2023⟩ 1000 (1 / 50)
          [(⟨0, 2023⟩, 100), (⟨1, 2023⟩, 100), (⟨2, 2023⟩, 100)] [] [] = Except.ok r ∧
      r.sharpe = FloatVal.negInf := by
  have hr : dailyReturns [100, 100, 100] = [0, 0] := by
    norm_num [dailyReturns]
  have hsv : sampleVar [0, 0] = some 0 := by
    norm_num [sampleVar, listMean]
  have hvol0 : dailyVolatility [0, 0] = some 0 := by
    rw [dailyVolatility, hsv]
    simp
  have hvol : dailyVolatility (dailyReturns [100, 100, 100]) = some 0 := by
    rw [hr, hvol0]
  have hsd : daily_sharpe_ratio (dailyReturns [100, 100, 100]) (1 / 50) = FloatVal.negInf := by
    simp only [daily_sharpe_ratio, hr]
    norm_num [listMean, hvol0]
  have hann : annualized_sharpe_ratio (dailyReturns [100, 100, 100]) (1 / 50) =
      FloatVal.negInf := by
    simp only [annualized_sharpe_ratio, hsd, floatScale]
    rw [if_pos (Real.sqrt_pos.mpr (by norm_num))]
  refine ⟨hvol, hann, ?_⟩
  unfold analyze
  rw [if_neg (by decide : ¬((⟨2, 2023⟩ : Date).days ≤ (⟨0, 2023⟩ : Date).days)),
    if_neg (by decide : ¬("SPY" = "")),
    if_neg (by decide :
      ¬(([(((⟨0, 2023⟩ : Date), (100 : ℚ))), (⟨1, 2023⟩, 100), (⟨2, 2023⟩, 100)] :
        List (Date × ℚ)) = []))]
  refine ⟨_, rfl, ?_⟩
  show annualized_sharpe_ratio
      (dailyReturns (([((⟨0, 2023⟩ : Date), (100 : ℚ)), (⟨1, 2023⟩, 100),
        (⟨2, 2023⟩, 100)]).map Prod.snd)) (1 / 50) = FloatVal.negInf
  rw [show (([((⟨0, 2023⟩ : Date), (100 : ℚ)), (⟨1, 2023⟩, 100),
      (⟨2, 2023⟩, 100)]).map Prod.snd) = [100, 100, 100] from rfl]
  exact hann


lemma sum_map_sub_const (l : List ℚ) (c : ℚ) :
    (l.map (fun x => x - c)).sum = l.sum - l.length * c := by
  induction l with
  | nil => simp
  | cons x t ih =>
    simp [ih]
    ring

lemma listMean_map_sub_const (l : List ℚ) (c : ℚ) (h : l ≠ []) :
    listMean (l.map (fun x => x - c)) = listMean l - c := by
  have hn : (l.length : ℚ) ≠ 0 := by
    simpa using h
  rw [listMean, listMean, List.length_map, sum_map_sub_const]
  field_simp

lemma sampleVar_map_sub_const (l : List ℚ) (c : ℚ) :
    sampleVar (l.map (fun x => x - c)) = sampleVar l := by
  by_cases h2 : 2 ≤ l.length
  · have hne : l ≠ [] := by
      intro h
      rw [h] at h2
      simp at h2
    rw [sampleVar, sampleVar, if_pos (by simpa using h2), if_pos h2,
      listMean_map_sub_const l c hne, List.map_map, List.length_map]
    congr 2
    congr 1
    apply List.map_congr_left
    intro x _
    simp only [Function.comp_apply]
    ring
  · rw [sampleVar, sampleVar, if_neg (by simpa using h2), if_neg h2]

/-- C9: the code's daily Sharpe ratio (mean excess return divided by the
sample standard deviation of the RAW daily returns) coincides with the
formulation dividing by the standard deviation of the excess-return series,
because the sample standard deviation is invariant under subtraction of the
constant `riskFreeAnnualRate / 252`; the two agree for every return series
with at least two defined returns. -/
theorem sharpe_excess_vol_equiv (rets : List ℚ) (rf : ℚ) (_hlen : 2 ≤ rets.length) :
    dailyVolatility (rets.map (fun r => r - rf / 252)) = dailyVolatility rets ∧
    daily_sharpe_ratio_excessVol rets rf = daily_sharpe_ratio rets rf := by
  have hv : dailyVolatility (rets.map (fun r => r - rf / 252)) = dailyVolatility rets := by
    rw [dailyVolatility, dailyVolatility, sampleVar_map_sub_const]
  refine ⟨hv, ?_⟩
  unfold daily_sharpe_ratio_excessVol daily_sharpe_ratio
  rw [hv]

theorem sharpe_excess_vol_equiv_witness :
    dailyVolatility (([1 / 100, 2 / 100, -1 / 100] : List ℚ).map (fun r => r - (1 / 50) / 252)) =
      dailyVolatility [1 / 100, 2 / 100, -1 / 100] ∧
    daily_sharpe_ratio_excessVol [1 / 100, 2 / 100, -1 / 100] (1 / 50) =
      daily_sharpe_ratio [1 / 100, 2 / 100, -1 / 100] (1 / 50) :=
  sharpe_excess_vol_equiv [1 / 100, 2 / 100, -1 / 100] (1 / 50) (by decide)

lemma cumprodAux_dailyReturns (t : List ℚ) : ∀ (acc p : ℚ), (∀ x ∈ p :: t, x ≠ 0) →
    cumprodAux acc ((dailyReturns (p :: t)).map (fun r => r + 1)) =
      t.map (fun q => acc * q / p) := by
  induction t with
  | nil =>
    intro acc p _
    rfl
  | cons q r ih =>
    intro acc p hne
    have hp : p ≠ 0 := hne p (by simp)
    have hq : q ≠ 0 := hne q (by simp)
    have hd : dailyReturns (p :: q :: r) = (q / p - 1) :: dailyReturns (q :: r) := by
      simp [dailyReturns]
    rw [hd, List.map_cons, cumprodAux,
      ih (acc * (q / p - 1 + 1)) q (fun x hx => hne x (List.mem_cons_of_mem p hx))]
    rw [List.map_cons]
    congr 1
    · field_simp
    · apply List.map_congr_left
      intro s _
      field_simp
      ring

lemma getLastD_map_zero (f : ℚ → ℚ) (hf : f 0 = 0) (l : List ℚ) :
    (l.map f).getLastD 0 = f (l.getLastD 0) := by
  rw [List.getLastD_eq_getLast?, List.getLastD_eq_getLast?, List.getLast?_map]
  cases l.getLast? with
  | none => simpa using hf.symm
  | some a => rfl

/-- C10: for a PriceSeries of strictly positive prices the cumulative
product of `1 + dailyReturn` telescopes: `CumulativeReturn[i]` is
`price[i] / price[0]` at every index, `InvestmentValue[i]` is
`initialInvestment * price[i] / price[0]` (non-negative for a non-negative
initial investment), and `totalReturn` is `price[last] / price[0] - 1`. -/
theorem cumulativeReturn_telescopes (init p : ℚ) (t : List ℚ)
    (hpos : ∀ x ∈ p :: t, 0 < x) (hinit : 0 ≤ init) :
    cumulativeReturn (p :: t) = (p :: t).map (fun x => x / p) ∧
    investmentValue init (p :: t) = (p :: t).map (fun x => init * (x / p)) ∧
    (∀ v ∈ investmentValue init (p :: t), 0 ≤ v) ∧
    totalReturn (p :: t) = (p :: t).getLastD 0 / p - 1 := by
  have hne : ∀ x ∈ p :: t, x ≠ 0 := fun x hx => ne_of_gt (hpos x hx)
  have hp : p ≠ 0 := hne p (by simp)
  have hc : cumulativeReturn (p :: t) = (p :: t).map (fun x => x / p) := by
    show cumprod ((pctChangeFillZero (p :: t)).map (fun r => r + 1)) = _
    rw [pctChangeFillZero, List.map_cons, cumprod, cumprodAux,
      cumprodAux_dailyReturns t (1 * (0 + 1)) p hne, List.map_cons, div_self hp]
    norm_num
  have hiv : investmentValue init (p :: t) = (p :: t).map (fun x => init * (x / p)) := by
    rw [investmentValue, hc, List.map_map]
    rfl
  refine ⟨hc, hiv, ?_, ?_⟩
  · intro v hv
    rw [hiv] at hv
    obtain ⟨x, hx, rfl⟩ := List.mem_map.mp hv
    have hx0 : 0 < x := hpos x hx
    exact mul_nonneg hinit (div_nonneg hx0.le (hpos p (by simp)).le)
  · rw [totalReturn, hc, getLastD_map_zero (fun x => x / p) (zero_div p) (p :: t)]

theorem cumulativeReturn_telescopes_witness :
    cumulativeReturn [100, 102, 101] = ([100, 102, 101] : List ℚ).map (fun x => x / 100) ∧
    investmentValue 1000 [100, 102, 101] =
      ([100, 102, 101] : List ℚ).map (fun x => 1000 * (x / 100)) ∧
    (∀ v ∈ investmentValue 1000 [100, 102, 101], 0 ≤ v) ∧
    totalReturn [100, 102, 101] = ([100, 102, 101] : List ℚ).getLastD 0 / 100 - 1 :=
  cumulativeReturn_telescopes 1000 100 [102, 101] (by norm_num) (by norm_num)

/-- C5: Beta is Python-`None` (absent) exactly when the benchmark fetch is
empty or the benchmark return variance is exactly 0 (a non-fatal condition);
and whenever the benchmark is non-empty with defined non-zero variance `v`
and defined covariance `c` over the date-aligned return pairs (unmatched
dates excluded), beta is the present value `c / v`. -/
theorem beta_spec (data market : List (Date × ℚ)) :
    (beta data market = BetaVal.none ↔
      (market = [] ∨ sampleVar ((dailyReturnsDated market).map Prod.snd) = some 0)) ∧
    (∀ c v : ℚ, market ≠ [] →
      sampleCov (alignByDate (dailyReturnsDated data) (dailyReturnsDated market)) = some c →
      sampleVar ((dailyReturnsDated market).map Prod.snd) = some v → v ≠ 0 →
      beta data market = BetaVal.val (c / v)) := by
  by_cases hm : market = []
  · subst hm
    refine ⟨by simp [beta], fun c v hne _ _ _ => absurd rfl hne⟩
  · constructor
    · rcases hv : sampleVar ((dailyReturnsDated market).map Prod.snd) with _ | v
      · have hb : beta data market = BetaVal.nan := by
          simp [beta, hm, hv]
        simp [hb, hm]
      · by_cases hv0 : v = 0
        · subst hv0
          have hb : beta data market = BetaVal.none := by
            simp [beta, hm, hv]
          simp [hb, hm]
        · rcases hc : sampleCov
              (alignByDate (dailyReturnsDated data) (dailyReturnsDated market)) with _ | c
          · have hb : beta data market = BetaVal.nan := by
              simp [beta, hm, hv, hv0, hc]
            simp [hb, hm, hv0]
          · have hb : beta data market = BetaVal.val (c / v) := by
              simp [beta, hm, hv, hv0, hc]
            simp [hb, hm, hv0]
    · intro c v _ hc hv hv0
      simp [beta, hm, hv, hc, hv0]

theorem beta_spec_witness :
    beta [(⟨0, 2023⟩, 100), (⟨1, 2023⟩, 200), (⟨2, 2023⟩, 100)]
        [(⟨0, 2023⟩, 100), (⟨1, 2023⟩, 200), (⟨2, 2023⟩, 100)] =
      BetaVal.val ((9 / 8) / (9 / 8)) := by
  have h11 : ((⟨1, 2023⟩ : Date) == (⟨1, 2023⟩ : Date)) = true := by decide
  have h12 : ((⟨1, 2023⟩ : Date) == (⟨2, 2023⟩ : Date)) = false := by decide
  have h21 : ((⟨2, 2023⟩ : Date) == (⟨1, 2023⟩ : Date)) = false := by decide
  have h22 : ((⟨2, 2023⟩ : Date) == (⟨2, 2023⟩ : Date)) = true := by decide
  have hrets : dailyReturnsDated
      ([(⟨0, 2023⟩, 100), (⟨1, 2023⟩, 200), (⟨2, 2023⟩, 100)] : List (Date × ℚ)) =
      [(⟨1, 2023⟩, 1), (⟨2, 2023⟩, -(1 / 2))] := by
    norm_num [dailyReturnsDated]
  have halign : alignByDate
      ([(⟨1, 2023⟩, 1), (⟨2, 2023⟩, -(1 / 2))] : List (Date × ℚ))
      [(⟨1, 2023⟩, 1), (⟨2, 2023⟩, -(1 / 2))] = [(1, 1), (-(1 / 2), -(1 / 2))] := by
    norm_num [alignByDate, List.lookup, List.filterMap, h11, h12, h21, h22]
  have hc : sampleCov (alignByDate
      (dailyReturnsDated
        ([(⟨0, 2023⟩, 100), (⟨1, 2023⟩, 200), (⟨2, 2023⟩, 100)] : List (Date × ℚ)))
      (dailyReturnsDated
        ([(⟨0, 2023⟩, 100), (⟨1, 2023⟩, 200), (⟨2, 2023⟩, 100)] : List (Date × ℚ)))) =
      some (9 / 8) := by
    rw [hrets, halign]
    norm_num [sampleCov, listMean]
  have hv : sampleVar ((dailyReturnsDated
      ([(⟨0, 2023⟩, 100), (⟨1, 2023⟩, 200), (⟨2, 2023⟩, 100)] : List (Date × ℚ))).map
        Prod.snd) = some (9 / 8) := by
    rw [hrets]
    norm_num [sampleVar, listMean]
  exact (beta_spec _ _).2 (9 / 8) (9 / 8) (by decide) hc hv (by norm_num)

lemma length_cumprodAux (l : List ℚ) : ∀ acc, (cumprodAux acc l).length = l.length := by
  induction l with
  | nil => intro acc; rfl
  | cons x t ih => intro acc; simp [cumprodAux, ih]

lemma length_cumulativeReturn (ps : List ℚ) : (cumulativeReturn ps).length = ps.length := by
  rw [cumulativeReturn, cumprod, length_cumprodAux, List.length_map]
  cases ps with
  | nil => rfl
  | cons p t => simp [pctChangeFillZero, length_dailyReturns]

lemma length_investmentValue (init : ℚ) (ps : List ℚ) :
    (investmentValue init ps).length = ps.length := by
  rw [investmentValue, List.length_map, length_cumulativeReturn]

lemma length_annualRows (init : ℚ) (data : List (Date × ℚ)) :
    (annualRows init data).length = data.length := by
  rw [annualRows, List.length_map, List.length_zip, length_investmentValue, List.length_map,
    Nat.min_self]

lemma annualRows_fst (init : ℚ) (data : List (Date × ℚ)) :
    (annualRows init data).map Prod.fst = data.map (fun p => p.1.year) := by
  rw [annualRows, List.map_map]
  have h : (Prod.fst ∘ fun r : (Date × ℚ) × ℚ => (r.1.1.year, r.2)) =
      (fun p : Date × ℚ => p.1.year) ∘ Prod.fst := rfl
  rw [h, ← List.map_map, List.map_fst_zip]
  rw [length_investmentValue, List.length_map]

lemma annualRows_get (init : ℚ) (data : List (Date × ℚ)) (i : ℕ)
    (h1 : i < (annualRows init data).length) (h2 : i < data.length) :
    (annualRows init data).get ⟨i, h1⟩ =
      ((data.get ⟨i, h2⟩).1.year, (investmentValue init (data.map Prod.snd)).getD i 0) := by
  have h3 : i < (investmentValue init (data.map Prod.snd)).length := by
    rw [length_investmentValue, List.length_map]
    exact h2
  simp only [annualRows, List.get_eq_getElem, List.getElem_map, List.getElem_zip]
  simp [List.getElem?_eq_getElem h3]

lemma filter_last_index (y : ℤ) (l : List (ℤ × ℚ)) (hy : ∃ r ∈ l, r.1 = y) :
    ∃ i, ∃ hi : i < l.length, ((l.get ⟨i, hi⟩).1 = y ∧
      ((l.filter (fun r => r.1 = y)).map Prod.snd).getLastD 0 = (l.get ⟨i, hi⟩).2) ∧
      ∀ j, ∀ hj : j < l.length, i < j → (l.get ⟨j, hj⟩).1 ≠ y := by
  induction l using List.reverseRecOn with
  | nil =>
    obtain ⟨r, hr, _⟩ := hy
    exact absurd hr (List.not_mem_nil r)
  | append_singleton l a ih =>
    by_cases ha : a.1 = y
    · have hlen : l.length < (l ++ [a]).length := by simp
      refine ⟨l.length, hlen, ⟨?_, ?_⟩, ?_⟩
      · simp only [List.get_eq_getElem, List.getElem_concat_length l a l.length rfl]
        exact ha
      · rw [List.filter_append, show List.filter (fun r => decide (r.1 = y)) [a] = [a] by
          simp [ha]]
        rw [List.map_append, show List.map Prod.snd [a] = [a.2] from rfl,
          List.getLastD_concat]
        simp only [List.get_eq_getElem, List.getElem_concat_length l a l.length rfl]
      · intro j hj hlt
        have : j < l.length + 1 := by simpa using hj
        omega
    · have hy' : ∃ r ∈ l, r.1 = y := by
        obtain ⟨r, hr, hr1⟩ := hy
        rcases List.mem_append.mp hr with h | h
        · exact ⟨r, h, hr1⟩
        · rw [List.mem_singleton.mp h] at hr1
          exact absurd hr1 ha
      obtain ⟨i, hi, ⟨hi1, hi2⟩, hi3⟩ := ih hy'
      have hi' : i < (l ++ [a]).length := by
        simp only [List.length_append, List.length_singleton]
        omega
      refine ⟨i, hi', ⟨?_, ?_⟩, ?_⟩
      · simp only [List.get_eq_getElem, List.getElem_append_left hi]
        exact hi1
      · rw [List.filter_append, show List.filter (fun r => decide (r.1 = y)) [a] = [] by
          simp [ha]]
        rw [List.append_nil]
        simp only [List.get_eq_getElem, List.getElem_append_left hi]
        simpa only [List.get_eq_getElem] using hi2
      · intro j hj hlt
        by_cases hjl : j < l.length
        · have := hi3 j hjl hlt
          simpa only [List.get_eq_getElem, List.getElem_append_left hjl] using this
        · have hj' : j = l.length := by
            have : j < l.length + 1 := by simpa using hj
            omega
          simp only [List.get_eq_getElem, List.getElem_concat_length l a j hj']
          exact ha

lemma mem_annual_table (init : ℚ) (data : List (Date × ℚ)) (y : ℤ) (v : ℚ) :
    (y, v) ∈ annual_table init data ↔
      (y ∈ data.map (fun p => p.1.year) ∧
       v = (((annualRows init data).filter (fun r => r.1 = y)).map Prod.snd).getLastD 0) := by
  rw [annual_table, List.mem_map]
  constructor
  · rintro ⟨y', hy', heq⟩
    have h1 : y' = y := congrArg Prod.fst heq
    subst h1
    refine ⟨?_, (congrArg Prod.snd heq).symm⟩
    have hmem := (Finset.mem_sort (α := ℤ) (· ≤ ·)).mp hy'
    rw [List.mem_toFinset] at hmem
    rwa [annualRows_fst] at hmem
  · rintro ⟨hy, rfl⟩
    refine ⟨y, ?_, rfl⟩
    rw [Finset.mem_sort, List.mem_toFinset, annualRows_fst]
    exact hy

/-- C6: for a non-empty PriceSeries with strictly increasing dates, the
annual table has strictly ascending year keys (hence exactly one row per
year), its keys are exactly the distinct calendar years present in the
series, and each row's value is the InvestmentValue at that year's last
available trading date (the in-year date no other in-year date exceeds). -/
theorem annual_table_spec (init : ℚ) (data : List (Date × ℚ)) (_hne : data ≠ [])
    (hchain : List.Chain' (fun a b => a.1.days < b.1.days) data) :
    List.Pairwise (· < ·) ((annual_table init data).map Prod.fst) ∧
    (∀ y : ℤ, (∃ v, (y, v) ∈ annual_table init data) ↔ y ∈ data.map (fun p => p.1.year)) ∧
    (∀ y v, (y, v) ∈ annual_table init data →
      ∃ i, ∃ hi : i < data.length,
        (data.get ⟨i, hi⟩).1.year = y ∧
        v = (investmentValue init (data.map Prod.snd)).getD i 0 ∧
        ∀ j, ∀ hj : j < data.length, (data.get ⟨j, hj⟩).1.year = y →
          (data.get ⟨j, hj⟩).1.days ≤ (data.get ⟨i, hi⟩).1.days) := by
  refine ⟨?_, ?_, ?_⟩
  · have hfst : (annual_table init data).map Prod.fst =
        Finset.sort (· ≤ ·) ((annualRows init data).map Prod.fst).toFinset := by
      rw [annual_table, List.map_map]
      exact List.map_id _
    rw [hfst]
    exact Finset.sort_sorted_lt _
  · intro y
    constructor
    · rintro ⟨v, hv⟩
      exact ((mem_annual_table init data y v).mp hv).1
    · intro hy
      exact ⟨_, (mem_annual_table init data y _).mpr ⟨hy, rfl⟩⟩
  · intro y v hv
    obtain ⟨hy, hveq⟩ := (mem_annual_table init data y v).mp hv
    have hrow : ∃ r ∈ annualRows init data, r.1 = y := by
      rw [← annualRows_fst init data] at hy
      obtain ⟨r, hr, hr1⟩ := List.mem_map.mp hy
      exact ⟨r, hr, hr1⟩
    obtain ⟨i, hi, ⟨hk, hval⟩, hmax⟩ := filter_last_index y (annualRows init data) hrow
    have hid : i < data.length := by
      rw [← length_annualRows init data]
      exact hi
    have hget := annualRows_get init data i hi hid
    refine ⟨i, hid, ?_, ?_, ?_⟩
    · rw [hget] at hk
      exact hk
    · rw [hveq, hval, hget]
    · intro j hj hyj
      rcases lt_trichotomy j i with h | h | h
      · haveI : IsTrans (Date × ℚ) (fun a b => a.1.days < b.1.days) :=
          ⟨fun _ _ _ h1 h2 => h1.trans h2⟩
        have hp := List.chain'_iff_pairwise.mp hchain
        exact le_of_lt ((List.pairwise_iff_get.mp hp) ⟨j, hj⟩ ⟨i, hid⟩ (Fin.mk_lt_mk.mpr h))
      · subst h
        exact le_rfl
      · have hjr : j < (annualRows init data).length := by
          rw [length_annualRows]
          exact hj
        have hne' := hmax j hjr h
        rw [annualRows_get init data j hjr hj] at hne'
        exact absurd hyj hne'

theorem annual_table_spec_witness :
    List.Pairwise (· < ·)
      ((annual_table 1000 [(⟨0, 2023⟩, 100), (⟨1, 2023⟩, 102), (⟨370, 2024⟩, 101)]).map
        Prod.fst) ∧
    (∀ y : ℤ, (∃ v, (y, v) ∈
        annual_table 1000 [(⟨0, 2023⟩, 100), (⟨1, 2023⟩, 102), (⟨370, 2024⟩, 101)]) ↔
      y ∈ ([(⟨0, 2023⟩, 100), (⟨1, 2023⟩, 102), (⟨370, 2024⟩, 101)] :
        List (Date × ℚ)).map (fun p => p.1.year)) ∧
    (∀ y v, (y, v) ∈
        annual_table 1000 [(⟨0, 2023⟩, 100), (⟨1, 2023⟩, 102), (⟨370, 2024⟩, 101)] →
      ∃ i, ∃ hi : i < ([(⟨0, 2023⟩, 100), (⟨1, 2023⟩, 102), (⟨370, 2024⟩, 101)] :
          List (Date × ℚ)).length,
        (([(⟨0, 2023⟩, 100), (⟨1, 2023⟩, 102), (⟨370, 2024⟩, 101)] :
          List (Date × ℚ)).get ⟨i, hi⟩).1.year = y ∧
        v = (investmentValue 1000
          (([(⟨0, 2023⟩, 100), (⟨1, 2023⟩, 102), (⟨370, 2024⟩, 101)] :
            List (Date × ℚ)).map Prod.snd)).getD i 0 ∧
        ∀ j, ∀ hj : j < ([(⟨0, 2023⟩, 100), (⟨1, 2023⟩, 102), (⟨370, 2024⟩, 101)] :
            List (Date × ℚ)).length,
          (([(⟨0, 2023⟩, 100), (⟨1, 2023⟩, 102), (⟨370, 2024⟩, 101)] :
            List (Date × ℚ)).get ⟨j, hj⟩).1.year = y →
          (([(⟨0, 2023⟩, 100), (⟨1, 2023⟩, 102), (⟨370, 2024⟩, 101)] :
            List (Date × ℚ)).get ⟨j, hj⟩).1.days ≤
          (([(⟨0, 2023⟩, 100), (⟨1, 2023⟩, 102), (⟨370, 2024⟩, 101)] :
            List (Date × ℚ)).get ⟨i, hi⟩).1.days) :=
  annual_table_spec 1000 [(⟨0, 2023⟩, 100), (⟨1, 2023⟩, 102), (⟨370, 2024⟩, 101)]
    (by decide) (by norm_num [List.chain'_cons, List.chain'_singleton])
